import Mathlib

/-!
Verification development for the People_Daily_Toolkit repository.

The repository has two scripts:

* `rmrb_down.py` — scrapes the newspaper site's per-page HTML, collects the
  per-page PDF links, downloads them into a per-date temp directory, merges
  them into one output PDF and cleans the temp files up
  (`get_page_count`, `get_pdf_urls`, `download_pdfs`, `merge_pdfs`,
  `clean_temp_files`, `download_rmrb_pdf`);
* `note_for_rmrb.py` — extracts the text of the merged PDF (`read_pdf`) and
  folds a streamed LLM response into an accumulated answer string
  (`extract_info`).

All I/O is modelled by explicit oracles: an HTML fetch returns `none` when
`requests.get` raises and otherwise the list of anchor `href`s of the parsed
page, in document order; a PDF download returns `none` when the request or the
file write raises and otherwise the downloaded bytes; reading a stored PDF
returns `none` when the (non-strict) parser raises and otherwise the list of
its pages (pages are abstract, represented by `Nat` identifiers); opening the
output file for writing either succeeds or raises (`Bool`).  A Python
exception caught by a `try`/`except` block is exactly an oracle returning
`none`/`false` at that call.
-/

/-! ### Streamed LLM response model (`note_for_rmrb.py`) -/

/-- One streamed delta of a chat-completion chunk.  Each of
`reasoning_content` and `content` is `none` when the attribute is missing
(`hasattr` is false) or carries Python `None`, and `some s` when it carries
the string `s`. -/
structure Delta where
  reasoning_content : Option String
  content : Option String
deriving DecidableEq

/-- One streamed chunk: the list of its choices, each represented by its
delta (the only part `extract_info` reads). -/
structure Chunk where
  choices : List Delta
deriving DecidableEq

/-- Truthiness of an optional string attribute, as tested by
`hasattr(choice.delta, a) and choice.delta.a`: present and a nonempty
string. -/
def truthy : Option String → Bool
  | some s => !s.isEmpty
  | none => false

/-- The accumulation loop of `extract_info` (`note_for_rmrb.py` lines
126-147): starting from accumulator `acc`, for each chunk skip it when it has
no choices; otherwise look at the first choice's delta: when its
`reasoning_content` is truthy only print (accumulate nothing); otherwise when
its `content` is truthy append that content to the accumulator. -/
def extract_loop : String → List Chunk → String
  | acc, [] => acc
  | acc, c :: rest =>
    match c.choices.head? with
    | none => extract_loop acc rest
    | some dlt =>
      if truthy dlt.reasoning_content then extract_loop acc rest
      else if truthy dlt.content then
        extract_loop (acc ++ dlt.content.getD "") rest
      else extract_loop acc rest

/-- Model of `extract_info`'s stream-processing result: the accumulated
`mycontent` returned after folding the whole chunk stream, starting from
`""`.  (The request construction itself is network I/O; the stream of chunks
it yields is the function's input here.) -/
def extract_info (chunks : List Chunk) : String :=
  extract_loop "" chunks

/-- Model of Python's `"\n".join(parts)`: the parts in order with a single
newline between consecutive parts. -/
def joinPages : List String → String
  | [] => ""
  | [t] => t
  | t :: rest => t ++ "\n" ++ joinPages rest

/-- Model of `read_pdf` (`note_for_rmrb.py` lines 34-57).  The input is the
list of `page.extract_text()` results over `reader.pages`, where `none`
stands for a page yielding Python `None` (the code maps it to `""` with
`or ""`; a page yielding `""` is likewise kept as `""`).  The result is
`"\n".join(...)` of those texts. -/
def read_pdf (pages : List (Option String)) : String :=
  joinPages (pages.map (fun p => p.getD ""))

/-! ### Newspaper download pipeline model (`rmrb_down.py`) -/

/-- Raw downloaded file content. -/
abbrev Bytes := List Nat

/-- Decides whether `needle` is a prefix of `s` (character lists). -/
def hasPre : List Char → List Char → Bool
  | [], _ => true
  | _ :: _, [] => false
  | a :: as_, b :: bs => a == b && hasPre as_ bs

/-- Model of Python's substring test `needle in s` on character lists. -/
def containsSub : List Char → List Char → Bool
  | s, needle =>
    match s with
    | [] => needle.isEmpty
    | _ :: rest => hasPre needle s || containsSub rest needle

/-- Splits a character list into its maximal leading run of decimal digits
and the remainder (the greedy `\d+` of the regex; hrefs are ASCII, so ASCII
digits model `\d`). -/
def takeDigits : List Char → List Char × List Char
  | [] => ([], [])
  | c :: rest =>
    if c.isDigit then
      let p := takeDigits rest
      (c :: p.1, p.2)
    else ([], c :: rest)

/-- Numeric value of a decimal digit run, as `int(...)` reads it. -/
def digitsToNat (ds : List Char) : Nat :=
  ds.foldl (fun a c => a * 10 + (c.toNat - '0'.toNat)) 0

/-- Attempts to match the regex `node_(\d+)\.html` at the start of `s`,
returning the numeric value of the captured digit group.  Because the
character after the greedy digit run is not a digit, the only viable match
takes the maximal digit run followed by the literal `.html`. -/
def matchNodeAt (s : List Char) : Option Nat :=
  if hasPre "node_".data s then
    let p := takeDigits (s.drop 5)
    if p.1.isEmpty then none
    else if hasPre ".html".data p.2 then some (digitsToNat p.1)
    else none
  else none

/-- Model of `re.search(r'node_(\d+)\.html', s)`: the leftmost match's
captured group value, or `none` when no position matches. -/
def searchNode : List Char → Option Nat
  | [] => none
  | c :: rest =>
    match matchNodeAt (c :: rest) with
    | some n => some n
    | none => searchNode rest

/-- Model of `get_page_count` (`rmrb_down.py` lines 14-43).  The argument is
the outcome of fetching and parsing the catalog page: `none` when
`requests.get` raises (caught: the function returns the fallback 8), and
`some hrefs` (the anchor `href`s of the parsed document) when the fetch
succeeds — BeautifulSoup's lenient `html.parser` does not raise on malformed
input, it just yields whatever anchors it finds, possibly none.  On success
the function keeps the hrefs containing both `node_` and `.html`, extracts
each one's `node_(\d+)\.html` number and returns the maximum found, starting
from 0. -/
def get_page_count (fetched : Option (List String)) : Nat :=
  match fetched with
  | none => 8
  | some hrefs =>
    let page_links := hrefs.filter fun h =>
      containsSub h.data "node_".data && containsSub h.data ".html".data
    page_links.foldl
      (fun m h =>
        match searchNode h.data with
        | some n => Nat.max m n
        | none => m)
      0

/-- Zero-padded two-digit decimal rendering, Python's `f"{n:02d}"` for
nonnegative `n`. -/
def pad2 (n : Nat) : String :=
  if n < 10 then "0" ++ toString n else toString n

/-- The per-date layout directory URL
`f"{base_url}/rmrb/pc/layout/{year}{month}/{day}/"` (with `ym` standing for
`year + month`). -/
def layoutDir (base ym d : String) : String :=
  base ++ "/rmrb/pc/layout/" ++ ym ++ "/" ++ d ++ "/"

/-- The page URL `f"{base_url}/rmrb/pc/layout/{year}{month}/{day}/node_{i:02d}.html"`. -/
def node_url (base ym d : String) (i : Nat) : String :=
  layoutDir base ym d ++ "node_" ++ pad2 i ++ ".html"

/-- Model of Python's `s.startswith(pre)`. -/
def strStarts (s pre : String) : Bool :=
  hasPre pre.data s.data

/-- Model of Python's `s.endswith(suf)`. -/
def strEnds (s suf : String) : Bool :=
  hasPre suf.data.reverse s.data.reverse

/-- Model of Python's `s.split('-')` on character lists: groups between the
dashes, in order (an empty input gives one empty group). -/
def splitDash : List Char → List (List Char)
  | [] => [[]]
  | c :: rest =>
    let r := splitDash rest
    if c == '-' then [] :: r
    else
      match r with
      | [] => [[c]]
      | g :: gs => (c :: g) :: gs

/-- Model of `year, month, day = date_str.split('-')`: `none` when the split
does not yield exactly three parts (Python raises a `ValueError` that
propagates out of `get_pdf_urls` uncaught). -/
def splitDate (date_str : String) : Option (String × String × String) :=
  match (splitDash date_str.data).map String.mk with
  | [y, m, d] => some (y, m, d)
  | _ => none

/-- Link normalization of `get_pdf_urls` (`rmrb_down.py` lines 83-88): an
href starting with `"http"` is kept as is; otherwise one starting with `"/"`
is prefixed with the base URL; any other href is resolved against the page's
layout directory. -/
def normalize_href (base ym d href : String) : String :=
  if strStarts href "http" then href
  else if strStarts href "/" then base ++ href
  else layoutDir base ym d ++ href

/-- Model of `soup.find('a', href=lambda x: x and x.endswith('.pdf'))`: the
first anchor href, in document order, ending in `.pdf`. -/
def find_pdf_link (hrefs : List String) : Option String :=
  hrefs.find? fun h => strEnds h ".pdf"

/-- One iteration body of the `get_pdf_urls` page loop for page index `i`:
`none` when the page fetch raises (caught and skipped) or no `.pdf` anchor is
found (skipped with a warning); otherwise the normalized PDF URL. -/
def resolve_page (fetchPage : String → Option (List String)) (base ym d : String)
    (i : Nat) : Option String :=
  match fetchPage (node_url base ym d i) with
  | none => none
  | some hrefs =>
    match find_pdf_link hrefs with
    | none => none
    | some href => some (normalize_href base ym d href)

/-- The `for i in range(1, page_count + 1)` loop of `get_pdf_urls`:
`pdf_urls_loop fp base ym d i k` processes page indices `i, i+1, ..., i+k-1`
in order, appending each resolved URL and skipping failures. -/
def pdf_urls_loop (fp : String → Option (List String)) (base ym d : String) :
    Nat → Nat → List String
  | _, 0 => []
  | i, k + 1 =>
    match resolve_page fp base ym d i with
    | some url => url :: pdf_urls_loop fp base ym d (i + 1) k
    | none => pdf_urls_loop fp base ym d (i + 1) k

/-- Model of `get_pdf_urls` (`rmrb_down.py` lines 46-97): split the date
(outer `none` = `ValueError` propagating), build the catalog URL (page index
1), resolve the page count via `get_page_count`, then loop over pages
`1..page_count` collecting normalized PDF links. -/
def get_pdf_urls (fp : String → Option (List String)) (base_url date_str : String) :
    Option (List String) :=
  match splitDate date_str with
  | none => none
  | some (y, m, d) =>
    let catalog_url := node_url base_url (y ++ m) d 1
    let page_count := get_page_count (fp catalog_url)
    some (pdf_urls_loop fp base_url (y ++ m) d 1 page_count)

/-- The per-date temporary directory name `f"temp_pdfs_{date_str}"`. -/
def tempDir (date_str : String) : String :=
  "temp_pdfs_" ++ date_str

/-- The per-page temporary file name
`f"{temp_dir}/rmrb_{date_str}_{n:02d}.pdf"` (with `n` the 1-based page
position in the URL list). -/
def tempName (date_str : String) (n : Nat) : String :=
  tempDir date_str ++ "/rmrb_" ++ date_str ++ "_" ++ pad2 n ++ ".pdf"

/-- The `for i, pdf_url in enumerate(pdf_urls)` loop of `download_pdfs`:
`i` is the 0-based enumeration index (it advances on failures too, so file
names keep their original positions); a successful download appends the
written `(file_name, bytes)` pair, a raised exception is caught and the URL
skipped.  The oracle `net` covers the whole `try` body (request plus file
write). -/
def download_loop (net : String → Option Bytes) (date_str : String) :
    Nat → List String → List (String × Bytes)
  | _, [] => []
  | i, url :: rest =>
    match net url with
    | some b => (tempName date_str (i + 1), b) :: download_loop net date_str (i + 1) rest
    | none => download_loop net date_str (i + 1) rest

/-- Model of `download_pdfs` (`rmrb_down.py` lines 100-140): creates the
temp directory (modelled as succeeding; a `makedirs` failure would propagate
uncaught) and downloads each URL in order, returning the written files in
order together with their content.  The source returns the file-name list;
the paired bytes record what each written file holds. -/
def download_pdfs (net : String → Option Bytes) (pdf_urls : List String)
    (date_str : String) : List (String × Bytes) :=
  download_loop net date_str 0 pdf_urls

/-- The file loop of `merge_pdfs`: reading each input with the non-strict
parser, appending all its pages, in order, to the pages accumulated so far;
a file whose read raises is caught, logged and skipped. -/
def merge_loop (readPdf : String → Option (List Nat)) :
    List String → List Nat → List Nat
  | [], pages => pages
  | f :: rest, pages =>
    match readPdf f with
    | some ps => merge_loop readPdf rest (pages ++ ps)
    | none => merge_loop readPdf rest pages

/-- Model of `merge_pdfs` (`rmrb_down.py` lines 143-176): accumulate the
pages of every readable input file in order, then write them to
`output_file`.  `some pages` models the `True` return with `pages` the
output document's content; `none` models the `False` return from the outer
`except` (in this model only the output write `open(output_file, 'wb')`,
covered by `writeOk`, can raise there). -/
def merge_pdfs (readPdf : String → Option (List Nat)) (writeOk : String → Bool)
    (pdf_files : List String) (output_file : String) : Option (List Nat) :=
  let pages := merge_loop readPdf pdf_files []
  if writeOk output_file then some pages else none

/-- Drops the trailing run of `'/'` characters. -/
def rstripSlash (l : List Char) : List Char :=
  (l.reverse.dropWhile (fun c => c == '/')).reverse

/-- Index of the last `'/'` in a character list, when any. -/
def lastSlashIdx : List Char → Option Nat
  | [] => none
  | c :: rest =>
    match lastSlashIdx rest with
    | some k => some (k + 1)
    | none => if c == '/' then some 0 else none

/-- Model of `os.path.dirname` for POSIX paths: everything up to the last
`'/'`, with trailing slashes stripped unless the head is all slashes; `""`
when there is no slash. -/
def dirnameOf (p : String) : String :=
  match lastSlashIdx p.data with
  | none => ""
  | some i =>
    let head := p.data.take (i + 1)
    if head.all (fun c => c == '/') then String.mk head
    else String.mk (rstripSlash head)

/-- Model of `clean_temp_files` (`rmrb_down.py` lines 179-198): attempts to
remove every listed file and then, when the list is nonempty, the directory
of the first one.  Each attempt's outcome comes from the oracles `removeOk` /
`rmdirOk`; a failed attempt is caught and logged, so the attempts made never
depend on earlier outcomes.  The result is the ordered list of
`(path, succeeded)` attempts. -/
def clean_temp_files (removeOk rmdirOk : String → Bool)
    (temp_files : List String) : List (String × Bool) :=
  let fileAttempts := temp_files.map fun f => (f, removeOk f)
  match temp_files with
  | [] => fileAttempts
  | f0 :: _ => fileAttempts ++ [(dirnameOf f0, rmdirOk (dirnameOf f0))]

/-- The I/O oracles of one pipeline run: HTML page fetches, PDF downloads,
stored-PDF parsing, output-file writability and the two deletion
primitives. -/
structure World where
  fetchPage : String → Option (List String)
  net : String → Option Bytes
  parse : Bytes → Option (List Nat)
  writeOk : String → Bool
  removeOk : String → Bool
  rmdirOk : String → Bool

/-- Reading a temp file back during the merge: the bytes the downloader
wrote at that path (the temp files are the only paths the merge reads), fed
to the PDF parser. -/
def readDownloaded (downloaded : List (String × Bytes))
    (parse : Bytes → Option (List Nat)) (p : String) : Option (List Nat) :=
  match downloaded.lookup p with
  | some b => parse b
  | none => none

/-- The merged output path `f"storage/downloads/rmrb/rmrb_{date_str}.pdf"`. -/
def output_path (date_str : String) : String :=
  "storage/downloads/rmrb/rmrb_" ++ date_str ++ ".pdf"

/-- Model of `download_rmrb_pdf` (`rmrb_down.py` lines 201-244).  The outer
`none` is an uncaught exception (malformed date string).  Otherwise the
result pairs the function's return value (`none` = Python `None`) with the
list of cleanup attempts performed: empty URL list → `None` with no cleanup;
empty download list → `None` with no cleanup; otherwise merge into the
output path and clean the temp files on both the success and the failure
branch, returning the output path exactly when the merge succeeded. -/
def download_rmrb_pdf (w : World) (date_str base_url : String) :
    Option (Option String × List (String × Bool)) :=
  match get_pdf_urls w.fetchPage base_url date_str with
  | none => none
  | some pdf_urls =>
    if pdf_urls.isEmpty then some (none, [])
    else
      let downloaded := download_pdfs w.net pdf_urls date_str
      if downloaded.isEmpty then some (none, [])
      else
        let files := downloaded.map Prod.fst
        let out := output_path date_str
        match merge_pdfs (readDownloaded downloaded w.parse) w.writeOk files out with
        | some _ => some (some out, clean_temp_files w.removeOk w.rmdirOk files)
        | none => some (none, clean_temp_files w.removeOk w.rmdirOk files)

/-! ### Helper lemmas -/

/-- Processing a concatenated stream processes the first part and continues
with its final accumulator. -/
theorem extract_loop_append (a b : List Chunk) :
    ∀ acc, extract_loop acc (a ++ b) = extract_loop (extract_loop acc a) b := by
  induction a with
  | nil => intro acc; rfl
  | cons c rest ih =>
    intro acc
    simp only [List.cons_append, extract_loop]
    cases hc : c.choices.head? with
    | none => exact ih acc
    | some dlt =>
      by_cases hr : truthy dlt.reasoning_content
      · simp [hr, ih]
      · by_cases ha : truthy dlt.content
        · simp [hr, ha, ih]
        · simp [hr, ha, ih]

/-- The accumulator of `extract_loop` is a pure prefix of its result. -/
theorem extract_loop_acc (chunks : List Chunk) :
    ∀ acc, extract_loop acc chunks = acc ++ extract_loop "" chunks := by
  induction chunks with
  | nil => intro acc; simp [extract_loop]
  | cons c rest ih =>
    intro acc
    simp only [extract_loop]
    cases hc : c.choices.head? with
    | none => exact ih acc
    | some dlt =>
      by_cases hr : truthy dlt.reasoning_content
      · simp only [hr, if_true]
        exact ih acc
      · by_cases ha : truthy dlt.content
        · simp only [hr, ha, if_false, if_true, Bool.false_eq_true]
          rw [ih (acc ++ dlt.content.getD ""), ih ("" ++ dlt.content.getD ""),
            String.empty_append, String.append_assoc]
        · simp only [hr, ha, if_false, Bool.false_eq_true]
          exact ih acc

/-- The accumulator of `merge_loop` is a pure prefix of its result. -/
theorem merge_loop_acc (readPdf : String → Option (List Nat)) (files : List String) :
    ∀ acc, merge_loop readPdf files acc = acc ++ merge_loop readPdf files [] := by
  induction files with
  | nil => intro acc; simp [merge_loop]
  | cons f rest ih =>
    intro acc
    cases hr : readPdf f with
    | none =>
      simp only [merge_loop, hr]
      exact ih acc
    | some ps =>
      simp only [merge_loop, hr]
      rw [ih (acc ++ ps), ih ([] ++ ps), List.nil_append, List.append_assoc]

/-- Two read oracles agreeing on every listed file merge identically. -/
theorem merge_loop_congr (r1 r2 : String → Option (List Nat)) (files : List String)
    (h : ∀ f ∈ files, r1 f = r2 f) :
    ∀ acc, merge_loop r1 files acc = merge_loop r2 files acc := by
  induction files with
  | nil => intro acc; rfl
  | cons f rest ih =>
    intro acc
    have hf : r1 f = r2 f := h f (by simp)
    cases hr : r2 f with
    | none =>
      simp only [merge_loop, hf, hr]
      exact ih (fun g hg => h g (by simp [hg])) acc
    | some ps =>
      simp only [merge_loop, hf, hr]
      exact ih (fun g hg => h g (by simp [hg])) (acc ++ ps)

/-- Merging the files of a stored association list with distinct names
yields the concatenation of the parses of their contents, in list order. -/
theorem merge_loop_readDownloaded (parse : Bytes → Option (List Nat)) :
    ∀ dl : List (String × Bytes), (dl.map Prod.fst).Nodup →
      merge_loop (readDownloaded dl parse) (dl.map Prod.fst) [] =
        (dl.map (fun pr => ((parse pr.2).getD []))).flatten := by
  intro dl
  induction dl with
  | nil => intro _; rfl
  | cons fb rest ih =>
    intro hnd
    obtain ⟨f, b⟩ := fb
    simp only [List.map_cons, List.nodup_cons] at hnd
    simp only [List.map_cons, merge_loop, List.flatten_cons]
    have hself : readDownloaded ((f, b) :: rest) parse f = parse b := by
      simp [readDownloaded, List.lookup_cons]
    have hrest : merge_loop (readDownloaded ((f, b) :: rest) parse)
        (rest.map Prod.fst) [] = merge_loop (readDownloaded rest parse)
        (rest.map Prod.fst) [] := by
      apply merge_loop_congr
      intro g hg
      have hgf : (g == f) = false := by
        rw [beq_eq_false_iff_ne]
        intro hEq
        exact hnd.1 (hEq ▸ hg)
      simp [readDownloaded, List.lookup_cons, hgf]
    rw [hself]
    cases hp : parse b with
    | none =>
      simp only [Option.getD_none, List.nil_append]
      rw [hrest, ih hnd.2]
    | some ps =>
      simp only [Option.getD_some, List.nil_append]
      rw [merge_loop_acc, hrest, ih hnd.2]

/-- When every listed file is unreadable the merge accumulates no page. -/
theorem merge_loop_all_none (readPdf : String → Option (List Nat)) :
    ∀ files : List String, (∀ f ∈ files, readPdf f = none) →
      merge_loop readPdf files [] = [] := by
  intro files
  induction files with
  | nil => intro _; rfl
  | cons f rest ih =>
    intro h
    simp only [merge_loop, h f (by simp)]
    exact ih (fun g hg => h g (by simp [hg]))

/-- The page-number fold of `get_page_count` keeps its accumulator over
links in which the pattern is nowhere found. -/
theorem foldl_searchNone (l : List String) (h : ∀ s ∈ l, searchNode s.data = none) :
    ∀ m : Nat, l.foldl
      (fun m h' =>
        match searchNode h'.data with
        | some n => Nat.max m n
        | none => m) m = m := by
  induction l with
  | nil => intro m; rfl
  | cons s rest ih =>
    intro m
    simp only [List.foldl_cons, h s (by simp)]
    exact ih (fun g hg => h g (by simp [hg])) m

/-- Counting the separators of a join of newline-free parts. -/
theorem joinPages_count (l : List String) (hl : l ≠ [])
    (h : ∀ s ∈ l, ('\n' : Char) ∉ s.data) :
    (joinPages l).data.count '\n' = l.length - 1 := by
  induction l with
  | nil => exact absurd rfl hl
  | cons t rest ih =>
    cases rest with
    | nil =>
      simp only [joinPages, List.length_singleton]
      have := List.count_eq_zero.mpr (h t (by simp))
      omega
    | cons u rs =>
      have hstep : joinPages (t :: u :: rs) = t ++ "\n" ++ joinPages (u :: rs) := rfl
      rw [hstep]
      simp only [String.data_append, List.count_append]
      have h1 : t.data.count '\n' = 0 := List.count_eq_zero.mpr (h t (by simp))
      have h2 : ("\n" : String).data.count '\n' = 1 := by decide
      have h3 : (joinPages (u :: rs)).data.count '\n' = (u :: rs).length - 1 :=
        ih (by simp) (fun g hg => h g (by simp [hg]))
      simp only [h1, h2, h3, List.length_cons]
      omega

/-- Temporary file names for positions 1 and 3 differ, whatever the date. -/
theorem tempName_ne (d : String) : tempName d 1 ≠ tempName d 3 := by
  intro h
  have hd := congrArg String.data h
  simp only [tempName, tempDir, String.data_append, List.append_assoc] at hd
  replace hd := List.append_cancel_left hd
  replace hd := List.append_cancel_left hd
  replace hd := List.append_cancel_left hd
  replace hd := List.append_cancel_left hd
  replace hd := List.append_cancel_left hd
  exact absurd hd (by decide)

/-! ### Spec-side definitions for the analyzer claims -/

/-- Concatenation of a list of strings in order (Python `"".join`-style
folding, the spec's notion of accumulating fragments). -/
def concatAll : List String → String
  | [] => ""
  | s :: rest => s ++ concatAll rest

/-- Modelled from the spec's data model: the answer contents of a fragment
stream, in stream order — the truthy `content` field of each chunk's first
choice. -/
def answer_texts (chunks : List Chunk) : List String :=
  chunks.filterMap fun c =>
    match c.choices.head? with
    | none => none
    | some dlt => if truthy dlt.content then some (dlt.content.getD "") else none

/-- Modelled from the spec's data model: a chunk whose first choice does not
carry truthy reasoning content and truthy answer content at the same time —
the spec classifies each incoming fragment as either reasoning or answer. -/
def exclusiveChunk (c : Chunk) : Bool :=
  match c.choices.head? with
  | none => true
  | some dlt => !(truthy dlt.reasoning_content && truthy dlt.content)

/-! ### Claim theorems -/

/-- C2: for every finite stream of response fragments, each classified as
either reasoning or answer content, `extract_info` returns exactly the
concatenation, in stream order, of the fragments' answer content — and hence
reasoning content is never included in the returned string. -/
theorem C2_answer_concatenation (chunks : List Chunk)
    (h : ∀ c ∈ chunks, exclusiveChunk c = true) :
    extract_info chunks = concatAll (answer_texts chunks) := by
  induction chunks with
  | nil => rfl
  | cons c rest ih =>
    have hrest : ∀ c' ∈ rest, exclusiveChunk c' = true :=
      fun c' hc' => h c' (List.mem_cons_of_mem c hc')
    have hihr := ih hrest
    cases hc : c.choices.head? with
    | none =>
      have hl : extract_info (c :: rest) = extract_info rest := by
        simp only [extract_info, extract_loop, hc]
      have hr2 : answer_texts (c :: rest) = answer_texts rest := by
        simp only [answer_texts, List.filterMap_cons, hc]
      rw [hl, hr2, hihr]
    | some dlt =>
      cases hr : truthy dlt.reasoning_content with
      | true =>
        have ha : truthy dlt.content = false := by
          have hx := h c (List.mem_cons_self c rest)
          simp only [exclusiveChunk, hc, hr, Bool.not_eq_eq_eq_not, Bool.not_true,
            Bool.true_and] at hx
          exact hx
        have hl : extract_info (c :: rest) = extract_info rest := by
          simp only [extract_info, extract_loop, hc, hr, if_true]
        have hr2 : answer_texts (c :: rest) = answer_texts rest := by
          simp only [answer_texts, List.filterMap_cons, hc, ha, Bool.false_eq_true,
            if_false]
        rw [hl, hr2, hihr]
      | false =>
        cases ha : truthy dlt.content with
        | false =>
          have hl : extract_info (c :: rest) = extract_info rest := by
            simp only [extract_info, extract_loop, hc, hr, ha, Bool.false_eq_true,
              if_false]
          have hr2 : answer_texts (c :: rest) = answer_texts rest := by
            simp only [answer_texts, List.filterMap_cons, hc, ha, Bool.false_eq_true,
              if_false]
          rw [hl, hr2, hihr]
        | true =>
          have hl : extract_info (c :: rest) =
              dlt.content.getD "" ++ extract_info rest := by
            simp only [extract_info, extract_loop, hc, hr, ha, Bool.false_eq_true,
              if_false, if_true]
            rw [extract_loop_acc, String.empty_append]
          have hr2 : answer_texts (c :: rest) =
              dlt.content.getD "" :: answer_texts rest := by
            simp only [answer_texts, List.filterMap_cons, hc, ha, if_true]
          rw [hl, hr2, hihr]
          rfl

/-- C2 witness: the spec's analyzer scenario, a reasoning fragment
`"reason-A"` followed by answer fragments `"Hello"` and `" world"`, yields
the accumulator `"Hello world"`. -/
theorem C2_answer_concatenation_witness :
    extract_info
        [Chunk.mk [Delta.mk (some "reason-A") none],
         Chunk.mk [Delta.mk none (some "Hello")],
         Chunk.mk [Delta.mk none (some " world")]] = "Hello world" := by
  rw [C2_answer_concatenation _ (by decide)]
  rfl

/-- C10: a chunk whose delta carries both truthy reasoning content and
truthy answer content takes only the reasoning branch, so its answer
content contributes nothing to the accumulated result: dropping the chunk
from the stream leaves the result unchanged. -/
theorem C10_both_fields_drops_answer (pre post : List Chunk) (c : Chunk)
    (dlt : Delta) (hc : c.choices.head? = some dlt)
    (hr : truthy dlt.reasoning_content = true)
    (ha : truthy dlt.content = true) :
    extract_info (pre ++ c :: post) = extract_info (pre ++ post) := by
  simp only [extract_info, extract_loop_append, extract_loop, hc, hr, if_true]

/-- C10 witness: with both fields set to truthy values in the middle chunk,
the stream `[answer "A", both "r" "X", answer "B"]` accumulates the same
string as `[answer "A", answer "B"]` — the `"X"` is lost. -/
theorem C10_both_fields_drops_answer_witness :
    extract_info
        [Chunk.mk [Delta.mk none (some "A")],
         Chunk.mk [Delta.mk (some "r") (some "X")],
         Chunk.mk [Delta.mk none (some "B")]] =
      extract_info
        [Chunk.mk [Delta.mk none (some "A")],
         Chunk.mk [Delta.mk none (some "B")]] :=
  C10_both_fields_drops_answer
    [Chunk.mk [Delta.mk none (some "A")]]
    [Chunk.mk [Delta.mk none (some "B")]]
    (Chunk.mk [Delta.mk (some "r") (some "X")])
    (Delta.mk (some "r") (some "X")) rfl (by decide) (by decide)

/-- C5: text extraction joins the page texts with exactly one newline each
(N-1 separators for N newline-free page texts), a page yielding no text
contributing the empty string; in particular a 3-page PDF whose middle page
yields no text gives a string with an empty middle segment and exactly two
newline separators. -/
theorem C5_read_pdf_separators (pages : List (Option String)) (t1 t3 : String)
    (hne : pages ≠ [])
    (hfree : ∀ p ∈ pages, ('\n' : Char) ∉ (p.getD "").data)
    (h1 : ('\n' : Char) ∉ t1.data) (h3 : ('\n' : Char) ∉ t3.data) :
    (read_pdf pages).data.count '\n' = pages.length - 1 ∧
    read_pdf [some t1, none, some t3] = t1 ++ "\n" ++ "" ++ "\n" ++ t3 ∧
    (read_pdf [some t1, none, some t3]).data.count '\n' = 2 := by
  refine ⟨?_, ?_, ?_⟩
  · rw [read_pdf, joinPages_count (pages.map (fun p => p.getD ""))
      (by simpa using hne) ?_, List.length_map]
    intro s hs
    rw [List.mem_map] at hs
    obtain ⟨p, hp, rfl⟩ := hs
    exact hfree p hp
  · have he : read_pdf [some t1, none, some t3] =
        (t1 ++ "\n") ++ ((("" : String) ++ "\n") ++ t3) := rfl
    rw [he, String.empty_append, ← String.append_assoc, String.append_empty]
  · have hmem2 : ∀ s ∈ ([t1, "", t3] : List String), ('\n' : Char) ∉ s.data := by
      intro s hs
      rcases (by simpa using hs : s = t1 ∨ s = "" ∨ s = t3) with rfl | rfl | rfl
      · exact h1
      · simp
      · exact h3
    have hmap : (([some t1, none, some t3] : List (Option String)).map
        (fun p => p.getD "")) = [t1, "", t3] := rfl
    rw [read_pdf, hmap, joinPages_count [t1, "", t3] (by simp) hmem2]
    rfl

/-- C5 witness: the 3-page extraction `["a", no text, "b"]` gives
`"a\n\nb"`, with two newline separators and an empty middle segment. -/
theorem C5_read_pdf_separators_witness :
    (read_pdf [some "a", none, some "b"]).data.count '\n' =
        ([some "a", none, some "b"] : List (Option String)).length - 1 ∧
    read_pdf [some "a", none, some "b"] = "a" ++ "\n" ++ "" ++ "\n" ++ "b" ∧
    (read_pdf [some "a", none, some "b"]).data.count '\n' = 2 :=
  C5_read_pdf_separators [some "a", none, some "b"] "a" "b"
    (by decide) (by decide) (by decide) (by decide)

/-- C3 counterexample: a catalog fetch that succeeds but whose body is
unparseable garbage yields no anchors (BeautifulSoup's lenient parser does
not raise), and `get_page_count` then returns 0, not the claimed fallback
8 — the fallback is reached only when the fetch itself raises. -/
theorem C3_counterexample :
    get_page_count (some []) = 0 ∧ get_page_count (some []) ≠ 8 := by
  decide

/-- C3 amended: a catalog fetch that raises makes `get_page_count` return
the fixed fallback 8 instead of propagating the error; a fetch that
succeeds but yields no href matching the page-index pattern returns 0 (the
maximum over an empty match set), not 8. -/
theorem C3_fallback_amended (hrefs : List String)
    (h : ∀ s ∈ hrefs, searchNode s.data = none) :
    get_page_count none = 8 ∧ get_page_count (some hrefs) = 0 := by
  refine ⟨rfl, ?_⟩
  simp only [get_page_count]
  exact foldl_searchNone _ (fun s hs => h s (List.mem_of_mem_filter hs)) 0

/-- C3 amended witness: a page whose only anchors are unrelated links
resolves to page count 0; a raising fetch resolves to 8. -/
theorem C3_fallback_amended_witness :
    get_page_count none = 8 ∧
    get_page_count (some ["main.css", "index.htm"]) = 0 :=
  C3_fallback_amended ["main.css", "index.htm"] (by decide)

/-- Concrete fetch oracle for the C4 counterexample: the catalog/first page
of date 2025-01-01 under base `"B"` holds an anchor to `node_01.html` (so
one page is discovered) and a PDF anchor with the absolute non-http scheme
URL `ftp://other/x.pdf`. -/
def c4Page : String → Option (List String) := fun u =>
  if u == node_url "B" "202501" "01" 1 then
    some ["node_01.html", "ftp://other/x.pdf"]
  else none

/-- C4 counterexample: the found href `ftp://other/x.pdf` starts with an
absolute scheme, yet the locator does not pass it through unchanged — the
code tests `startswith('http')`, so the href is resolved against the page
directory instead. -/
theorem C4_counterexample :
    get_pdf_urls c4Page "B" "2025-01-01" =
      some ["B/rmrb/pc/layout/202501/01/ftp://other/x.pdf"] ∧
    ("B/rmrb/pc/layout/202501/01/ftp://other/x.pdf" : String) ≠
      "ftp://other/x.pdf" := by
  decide

/-- C4 amended: an href starting with the literal `"http"` passes through
unchanged (this — not a general absolute-scheme test — is the code's
criterion); otherwise a root-relative href is prefixed with the base URL,
and any other href is resolved against the page's own layout directory. -/
theorem C4_normalization_amended (base ym d href : String) :
    (strStarts href "http" = true → normalize_href base ym d href = href) ∧
    (strStarts href "http" = false → strStarts href "/" = true →
      normalize_href base ym d href = base ++ href) ∧
    (strStarts href "http" = false → strStarts href "/" = false →
      normalize_href base ym d href =
        base ++ "/rmrb/pc/layout/" ++ ym ++ "/" ++ d ++ "/" ++ href) := by
  refine ⟨fun h => ?_, fun h1 h2 => ?_, fun h1 h2 => ?_⟩
  · simp [normalize_href, h]
  · simp [normalize_href, h1, h2]
  · simp [normalize_href, layoutDir, h1, h2, String.append_assoc]

/-- C4 amended witness: the spec's three examples on the page of
2025-01-01: `https://other/x.pdf` passes through, `/abs/x.pdf` is prefixed
with the base, `foo.pdf` resolves to the page's layout directory. -/
theorem C4_normalization_amended_witness :
    normalize_href "B" "202501" "01" "https://other/x.pdf" =
        "https://other/x.pdf" ∧
    normalize_href "B" "202501" "01" "/abs/x.pdf" = "B" ++ "/abs/x.pdf" ∧
    normalize_href "B" "202501" "01" "foo.pdf" =
      "B" ++ "/rmrb/pc/layout/" ++ "202501" ++ "/" ++ "01" ++ "/" ++ "foo.pdf" :=
  ⟨(C4_normalization_amended "B" "202501" "01" "https://other/x.pdf").1 (by decide),
   (C4_normalization_amended "B" "202501" "01" "/abs/x.pdf").2.1
     (by decide) (by decide),
   (C4_normalization_amended "B" "202501" "01" "foo.pdf").2.2
     (by decide) (by decide)⟩

/-- Helper: projecting the paths out of the removal-attempt pairs gives back
the file list. -/
theorem map_fst_pair (rm : String → Bool) (fs : List String) :
    (fs.map (fun f => (f, rm f))).map Prod.fst = fs := by
  induction fs with
  | nil => rfl
  | cons f rest ih => simp [ih]

/-- C1: page order is preserved through download and merge.  Merging any
stored download set with distinct file names concatenates the parses of the
stored contents in list order; and in the three-URL scenario where the
second download fails, the downloader stores exactly the first and third
files, in order, and the merge output holds exactly their pages `p1 ++ p3`,
with no gap artifact. -/
theorem C1_order_preserved (net : String → Option Bytes)
    (parse : Bytes → Option (List Nat)) (date_str : String)
    (dl : List (String × Bytes)) (hnd : (dl.map Prod.fst).Nodup)
    (u1 u2 u3 : String) (b1 b3 : Bytes) (p1 p3 : List Nat)
    (writeOk : String → Bool)
    (h1 : net u1 = some b1) (h2 : net u2 = none) (h3 : net u3 = some b3)
    (hp1 : parse b1 = some p1) (hp3 : parse b3 = some p3)
    (hw : writeOk (output_path date_str) = true) :
    merge_loop (readDownloaded dl parse) (dl.map Prod.fst) [] =
      (dl.map (fun pr => ((parse pr.2).getD []))).flatten ∧
    download_pdfs net [u1, u2, u3] date_str =
      [(tempName date_str 1, b1), (tempName date_str 3, b3)] ∧
    merge_pdfs
      (readDownloaded (download_pdfs net [u1, u2, u3] date_str) parse) writeOk
      ((download_pdfs net [u1, u2, u3] date_str).map Prod.fst)
      (output_path date_str) = some (p1 ++ p3) := by
  have hdown : download_pdfs net [u1, u2, u3] date_str =
      [(tempName date_str 1, b1), (tempName date_str 3, b3)] := by
    simp [download_pdfs, download_loop, h1, h2, h3]
  refine ⟨merge_loop_readDownloaded parse dl hnd, hdown, ?_⟩
  rw [hdown]
  have hnd2 : (([(tempName date_str 1, b1), (tempName date_str 3, b3)] :
      List (String × Bytes)).map Prod.fst).Nodup := by
    simp [tempName_ne date_str]
  simp only [merge_pdfs, hw, if_true]
  rw [merge_loop_readDownloaded parse
    [(tempName date_str 1, b1), (tempName date_str 3, b3)] hnd2]
  simp [hp1, hp3]

/-- C1 witness: a concrete three-URL run where the middle download fails;
the merge output is exactly the pages of the first and third downloads, in
order. -/
theorem C1_order_preserved_witness :
    merge_loop
        (readDownloaded ([] : List (String × Bytes))
          (fun b => if b == [0] then some [5] else
            if b == [1] then some [7] else none))
        (([] : List (String × Bytes)).map Prod.fst) [] =
      ((([] : List (String × Bytes))).map
        (fun pr => (((fun b => if b == [0] then some [5] else
          if b == [1] then some [7] else none) pr.2).getD []))).flatten ∧
    download_pdfs
        (fun u => if u == "a" then some [0] else
          if u == "c" then some [1] else none) ["a", "b", "c"] "d" =
      [(tempName "d" 1, [0]), (tempName "d" 3, [1])] ∧
    merge_pdfs
      (readDownloaded
        (download_pdfs
          (fun u => if u == "a" then some [0] else
            if u == "c" then some [1] else none) ["a", "b", "c"] "d")
        (fun b => if b == [0] then some [5] else
          if b == [1] then some [7] else none))
      (fun _ => true)
      ((download_pdfs
        (fun u => if u == "a" then some [0] else
          if u == "c" then some [1] else none) ["a", "b", "c"] "d").map Prod.fst)
      (output_path "d") = some ([5] ++ [7]) :=
  C1_order_preserved
    (fun u => if u == "a" then some [0] else if u == "c" then some [1] else none)
    (fun b => if b == [0] then some [5] else if b == [1] then some [7] else none)
    "d" [] (by decide) "a" "b" "c" [0] [1] [5] [7] (fun _ => true)
    (by decide) (by decide) (by decide) (by decide) (by decide) (by decide)

/-- C6: with a well-formed date the pipeline entry point never raises: it
returns `some` result, whose value is the absence indicator `none` exactly
when no PDF link was found, or every download failed, or the merge write
failed — and the merged output path on success. -/
theorem C6_pipeline_result (w : World) (base date_str y m d : String)
    (hd : splitDate date_str = some (y, m, d)) :
    ∃ urls : List String,
      get_pdf_urls w.fetchPage base date_str = some urls ∧
      ∃ r : Option String × List (String × Bool),
        download_rmrb_pdf w date_str base = some r ∧
        r.1 = (if urls.isEmpty || (download_pdfs w.net urls date_str).isEmpty
                  || !(w.writeOk (output_path date_str))
               then none else some (output_path date_str)) := by
  have hurls : get_pdf_urls w.fetchPage base date_str =
      some (pdf_urls_loop w.fetchPage base (y ++ m) d 1
        (get_page_count (w.fetchPage (node_url base (y ++ m) d 1)))) := by
    simp only [get_pdf_urls, hd]
  generalize hg : pdf_urls_loop w.fetchPage base (y ++ m) d 1
    (get_page_count (w.fetchPage (node_url base (y ++ m) d 1))) = urls at hurls
  refine ⟨urls, hurls, ?_⟩
  simp only [download_rmrb_pdf, hurls]
  cases he : urls.isEmpty with
  | true => exact ⟨(none, []), by simp [he], by simp [he]⟩
  | false =>
    cases hdl : (download_pdfs w.net urls date_str).isEmpty with
    | true => exact ⟨(none, []), by simp [he, hdl], by simp [he, hdl]⟩
    | false =>
      cases hw : w.writeOk (output_path date_str) with
      | true =>
        refine ⟨(some (output_path date_str),
          clean_temp_files w.removeOk w.rmdirOk
            ((download_pdfs w.net urls date_str).map Prod.fst)), ?_, ?_⟩
        · simp [he, hdl, merge_pdfs, hw]
        · simp [he, hdl, hw]
      | false =>
        refine ⟨(none,
          clean_temp_files w.removeOk w.rmdirOk
            ((download_pdfs w.net urls date_str).map Prod.fst)), ?_, ?_⟩
        · simp [he, hdl, merge_pdfs, hw]
        · simp [hw]

/-- C6 witness: a world whose every fetch raises — the locator finds no
link, and the pipeline returns the `none` indicator rather than raising. -/
theorem C6_pipeline_result_witness :
    ∃ urls : List String,
      get_pdf_urls
        (World.mk (fun _ => none) (fun _ => none) (fun _ => none)
          (fun _ => false) (fun _ => false) (fun _ => false)).fetchPage
        "B" "2025-01-01" = some urls ∧
      ∃ r : Option String × List (String × Bool),
        download_rmrb_pdf
          (World.mk (fun _ => none) (fun _ => none) (fun _ => none)
            (fun _ => false) (fun _ => false) (fun _ => false))
          "2025-01-01" "B" = some r ∧
        r.1 = (if urls.isEmpty ||
                  (download_pdfs
                    (World.mk (fun _ => none) (fun _ => none) (fun _ => none)
                      (fun _ => false) (fun _ => false) (fun _ => false)).net
                    urls "2025-01-01").isEmpty ||
                  !((World.mk (fun _ => none) (fun _ => none) (fun _ => none)
                      (fun _ => false) (fun _ => false) (fun _ => false)).writeOk
                    (output_path "2025-01-01"))
               then none else some (output_path "2025-01-01")) :=
  C6_pipeline_result
    (World.mk (fun _ => none) (fun _ => none) (fun _ => none)
      (fun _ => false) (fun _ => false) (fun _ => false))
    "B" "2025-01-01" "2025" "01" "01" (by decide)

/-- C7: every per-item failure is skipped without aborting later items: the
page loop of the locator equals an independent per-index resolution with
failures dropped; the download loop's stored contents equal the per-URL
fetches with failures dropped; and the merge loop's pages equal the
per-file parses concatenated with unreadable files contributing nothing. -/
theorem C7_per_item_skip (fp : String → Option (List String)) (base ym d : String)
    (net : String → Option Bytes) (date_str : String)
    (readPdf : String → Option (List Nat)) :
    (∀ i k, pdf_urls_loop fp base ym d i k =
      ((List.range k).map (fun j => i + j)).filterMap
        (resolve_page fp base ym d)) ∧
    (∀ (urls : List String) (i : Nat),
      (download_loop net date_str i urls).map Prod.snd = urls.filterMap net) ∧
    (∀ files : List String, merge_loop readPdf files [] =
      (files.map (fun f => (readPdf f).getD [])).flatten) := by
  refine ⟨?_, ?_, ?_⟩
  · intro i k
    induction k generalizing i with
    | zero => simp [pdf_urls_loop]
    | succ k ih =>
      rw [List.range_succ_eq_map]
      simp only [List.map_cons, List.map_map, List.filterMap_cons, Nat.add_zero]
      have hfun : ((fun j => i + j) ∘ Nat.succ) = fun j => (i + 1) + j := by
        funext j
        simp only [Function.comp]
        omega
      rw [hfun]
      cases hr : resolve_page fp base ym d i with
      | none =>
        simp only [pdf_urls_loop, hr]
        exact ih (i + 1)
      | some url =>
        simp only [pdf_urls_loop, hr]
        rw [ih (i + 1)]
  · intro urls
    induction urls with
    | nil => intro i; rfl
    | cons u rest ih =>
      intro i
      cases hr : net u with
      | none => simp [download_loop, hr, List.filterMap_cons, ih]
      | some b => simp [download_loop, hr, List.filterMap_cons, ih]
  · intro files
    induction files with
    | nil => rfl
    | cons f rest ih =>
      cases hr : readPdf f with
      | none =>
        simp only [merge_loop, hr, List.map_cons, List.flatten_cons,
          Option.getD_none, List.nil_append]
        exact ih
      | some ps =>
        simp only [merge_loop, hr, List.map_cons, List.flatten_cons,
          Option.getD_some, List.nil_append]
        rw [merge_loop_acc, ih]

/-- C8: whenever the pipeline reaches the merge step, the caller invokes
cleanup of all the downloaded temp files and the temp directory on both the
success and the failure branch; the cleanup attempts every listed file and
the directory of the first one regardless of the outcomes of the deletion
primitives — deletion failures are caught and never escalate. -/
theorem C8_cleanup_both_paths (w : World) (base date_str : String)
    (urls : List String)
    (hurls : get_pdf_urls w.fetchPage base date_str = some urls)
    (hne : urls.isEmpty = false)
    (hdl : (download_pdfs w.net urls date_str).isEmpty = false) :
    (∃ res : Option String,
      download_rmrb_pdf w date_str base =
        some (res, clean_temp_files w.removeOk w.rmdirOk
          ((download_pdfs w.net urls date_str).map Prod.fst))) ∧
    (∀ (rm1 rm2 rd1 rd2 : String → Bool) (fs : List String),
      (clean_temp_files rm1 rd1 fs).map Prod.fst =
        (clean_temp_files rm2 rd2 fs).map Prod.fst) ∧
    (∀ (rm rd : String → Bool) (f0 : String) (fs2 : List String),
      (clean_temp_files rm rd (f0 :: fs2)).map Prod.fst =
        (f0 :: fs2) ++ [dirnameOf f0]) := by
  refine ⟨?_, ?_, ?_⟩
  · simp only [download_rmrb_pdf, hurls, hne, hdl, Bool.false_eq_true, if_false]
    cases hm : merge_pdfs
        (readDownloaded (download_pdfs w.net urls date_str) w.parse)
        w.writeOk ((download_pdfs w.net urls date_str).map Prod.fst)
        (output_path date_str) with
    | some ps => exact ⟨some (output_path date_str), rfl⟩
    | none => exact ⟨none, rfl⟩
  · intro rm1 rm2 rd1 rd2 fs
    cases fs with
    | nil => rfl
    | cons f0 fs2 =>
      simp only [clean_temp_files, List.map_append, map_fst_pair,
        List.map_cons, List.map_nil]
  · intro rm rd f0 fs2
    simp only [clean_temp_files, List.map_append, map_fst_pair,
      List.map_cons, List.map_nil]

/-- Concrete world for the C8 witness: one discovered page whose PDF link
downloads (empty content), an unreadable parse, a failing output write and
failing deletion primitives — cleanup is still attempted in full. -/
def c8World : World :=
  World.mk
    (fun u => if u == node_url "B" "202501" "01" 1 then
      some ["node_01.html", "x.pdf"] else none)
    (fun _ => some []) (fun _ => none) (fun _ => false)
    (fun _ => false) (fun _ => false)

/-- C8 witness: the concrete run reaches the merge step, the merge write
fails, and the cleanup attempts (file then directory) are still recorded in
the returned trace. -/
theorem C8_cleanup_both_paths_witness :
    (∃ res : Option String,
      download_rmrb_pdf c8World "2025-01-01" "B" =
        some (res, clean_temp_files c8World.removeOk c8World.rmdirOk
          ((download_pdfs c8World.net ["B/rmrb/pc/layout/202501/01/x.pdf"]
            "2025-01-01").map Prod.fst))) ∧
    (∀ (rm1 rm2 rd1 rd2 : String → Bool) (fs : List String),
      (clean_temp_files rm1 rd1 fs).map Prod.fst =
        (clean_temp_files rm2 rd2 fs).map Prod.fst) ∧
    (∀ (rm rd : String → Bool) (f0 : String) (fs2 : List String),
      (clean_temp_files rm rd (f0 :: fs2)).map Prod.fst =
        (f0 :: fs2) ++ [dirnameOf f0]) :=
  C8_cleanup_both_paths c8World "B" "2025-01-01"
    ["B/rmrb/pc/layout/202501/01/x.pdf"] (by decide) (by decide) (by decide)

/-- C9: for a non-empty input list in which every file is unreadable,
`merge_pdfs` still writes an output with zero pages and returns success
whenever the output path is writable; and for any inputs whatsoever the
failure return arises exactly when the output write fails — per-file read
failures alone can never produce it. -/
theorem C9_merge_unreadable_success (readPdf : String → Option (List Nat))
    (writeOk : String → Bool) (files : List String) (out : String)
    (hne : files ≠ [])
    (hall : ∀ f ∈ files, readPdf f = none) :
    merge_pdfs readPdf writeOk files out =
      (if writeOk out then some [] else none) ∧
    ∀ (readPdf2 : String → Option (List Nat)) (files2 : List String),
      (merge_pdfs readPdf2 writeOk files2 out = none ↔ writeOk out = false) := by
  constructor
  · simp only [merge_pdfs, merge_loop_all_none readPdf files hall]
  · intro readPdf2 files2
    simp only [merge_pdfs]
    cases hw : writeOk out <;> simp

/-- C9 witness: merging the single unreadable file `"f"` with a writable
output path succeeds and writes a zero-page output. -/
theorem C9_merge_unreadable_success_witness :
    merge_pdfs (fun _ => none) (fun _ => true) ["f"] "o" =
      (if (fun _ => true : String → Bool) "o" then some [] else none) ∧
    ∀ (readPdf2 : String → Option (List Nat)) (files2 : List String),
      (merge_pdfs readPdf2 (fun _ => true) files2 "o" = none ↔
        (fun _ => true : String → Bool) "o" = false) :=
  C9_merge_unreadable_success (fun _ => none) (fun _ => true) ["f"] "o"
    (by decide) (by decide)
